import Mathlib

/-!
Shallow embedding of the LifeOS Plugin SDK core
(src/utils/version-checker.ts, src/core/plugin-registry.ts,
src/core/plugin-manager.ts) and proofs of the specification claims.

Conventions of the embedding:
* TypeScript string-literal union types (capability types, status values,
  system health) erase to strings at runtime, so they are modelled as
  `String`.
* JavaScript `Map`/`Set` preserve insertion order; they are modelled as
  association lists / lists with the corresponding set/delete semantics.
* A method that can `throw` is modelled in the `Except String` monad; a
  `try { .. } catch { .. }` block that swallows the error becomes a total
  function (the caught error is only logged in the source).
* Asynchronous plugin callbacks (`getSettings`, `initialize`, `destroy`,
  event hooks, `sync`) are modelled by recording the outcome each call
  would produce, as `Except String _` (or `Option (Except String _)` for
  optional hooks, `none` meaning the hook is not implemented).
* `Date`-valued fields (`lastSync`, timestamps) and log output are outside
  the embedding; fields of `any` type (`metadata`, `credentials`, ...) are
  omitted.
-/

namespace LifeOS

/-! ### Version checker (src/utils/version-checker.ts) -/

/-- Parsed numeric `major.minor.patch` triple, the value of
`VersionChecker.parseVersion`. -/
structure SemVer where
  major : Nat
  minor : Nat
  patch : Nat
deriving DecidableEq

/-- Character class `[0-9]` of the semver regex. -/
def isDigitCh (c : Char) : Bool :=
  decide ('0' ≤ c) && decide (c ≤ '9')

/-- Character class `[0-9A-Za-z-]` of the pre-release/build identifier
groups of the semver regex. -/
def isIdentCh (c : Char) : Bool :=
  (decide ('0' ≤ c) && decide (c ≤ '9')) ||
  (decide ('A' ≤ c) && decide (c ≤ 'Z')) ||
  (decide ('a' ≤ c) && decide (c ≤ 'z')) ||
  decide (c = '-')

/-- Numeric value of a digit run, as computed by `parseInt(s, 10)` on a
string of decimal digits. -/
def digitsVal (ds : List Char) : Nat :=
  ds.foldl (fun n c => 10 * n + (c.toNat - '0'.toNat)) 0

/-- Split a character list at every '.' (pieces may be empty). -/
def splitOnDot : List Char → List (List Char)
  | [] => [[]]
  | '.' :: rest => [] :: splitOnDot rest
  | c :: rest =>
    match splitOnDot rest with
    | [] => [[c]]
    | p :: ps => (c :: p) :: ps

/-- Consume the regex group `[0-9A-Za-z-]+(?:\.[0-9A-Za-z-]+)*`
(a dot-separated chain of nonempty identifiers) from the front of the
input; returns the rest of the input on success. Because '.' and the
identifier characters are exactly the characters such a chain can
contain, and the character that follows the group in the regex ('+' or
end of input) is never one of them, the group matches if and only if the
maximal run of identifier-or-dot characters splits at '.' into nonempty
pieces; no regex backtracking can succeed otherwise. -/
def identChain (cs : List Char) : Option (List Char) :=
  let run := cs.takeWhile (fun c => isIdentCh c || c = '.')
  let rest := cs.dropWhile (fun c => isIdentCh c || c = '.')
  if (splitOnDot run).all (fun p => !p.isEmpty) then some rest else none

/-- Match of `VersionChecker.SEMVER_REGEX`
`/^(\d+)\.(\d+)\.(\d+)(?:-([0-9A-Za-z-]+(?:\.[0-9A-Za-z-]+)*))?(?:\+([0-9A-Za-z-]+(?:\.[0-9A-Za-z-]+)*))?$/`
against a character list, keeping the three numeric capture groups
(the pre-release/build captures are dropped by `parseVersion`).
Each `(\d+)` run is taken maximally; since the character that must follow
it ('.', '-', '+', or end) is never a digit, maximal munch coincides with
the regex semantics. -/
def semverMatch (cs : List Char) : Option SemVer :=
  let d1 := cs.takeWhile isDigitCh
  let r1 := cs.dropWhile isDigitCh
  if d1.isEmpty then none else
  match r1 with
  | '.' :: r2 =>
    let d2 := r2.takeWhile isDigitCh
    let r3 := r2.dropWhile isDigitCh
    if d2.isEmpty then none else
    match r3 with
    | '.' :: r4 =>
      let d3 := r4.takeWhile isDigitCh
      let r5 := r4.dropWhile isDigitCh
      if d3.isEmpty then none else
      let afterPre : Option (List Char) :=
        match r5 with
        | '-' :: r6 => identChain r6
        | _ => some r5
      match afterPre with
      | none => none
      | some r7 =>
        let afterBuild : Option (List Char) :=
          match r7 with
          | '+' :: r8 => identChain r8
          | _ => some r7
        match afterBuild with
        | none => none
        | some r9 =>
          if r9.isEmpty then
            some ⟨digitsVal d1, digitsVal d2, digitsVal d3⟩
          else none
    | _ => none
  | _ => none

/-- `VersionChecker.parseVersion`: match the semver regex and return the
three numeric components; a non-matching string throws
`Invalid version format`. -/
def parseVersion (version : String) : Except String SemVer :=
  match semverMatch version.data with
  | none => Except.error ("Invalid version format: " ++ version)
  | some v => Except.ok v

/-- The comparison loop of `VersionChecker.compareVersions`: lexicographic
on (major, minor, patch), returning 1 / -1 / 0. -/
def cmpTriple (a b : SemVer) : Int :=
  if a.major > b.major then 1 else if a.major < b.major then -1
  else if a.minor > b.minor then 1 else if a.minor < b.minor then -1
  else if a.patch > b.patch then 1 else if a.patch < b.patch then -1
  else 0

/-- `VersionChecker.compareVersions`: parse both versions (either parse
may throw) and compare the triples. -/
def compareVersions (version1 version2 : String) : Except String Int := do
  let v1 ← parseVersion version1
  let v2 ← parseVersion version2
  pure (cmpTriple v1 v2)

/-- `VersionChecker.satisfiesCaretRange`.  For a range version with major
0, requires the candidate's major to be 0 and the candidate to compare
`>= 0` against the range version; otherwise requires equal majors and
`>= 0`.  The `&&` short-circuit of the source is kept: `compareVersions`
is only invoked when the major test passed. -/
def satisfiesCaretRange (version rangeVersion : String) : Except String Bool := do
  let v ← parseVersion version
  let r ← parseVersion rangeVersion
  if r.major = 0 then
    if v.major = 0 then do
      let c ← compareVersions version rangeVersion
      pure (decide (0 ≤ c))
    else pure false
  else
    if v.major = r.major then do
      let c ← compareVersions version rangeVersion
      pure (decide (0 ≤ c))
    else pure false

/-- `VersionChecker.satisfiesTildeRange`: equal major, equal minor, and
comparison `>= 0` (short-circuited as in the source). -/
def satisfiesTildeRange (version rangeVersion : String) : Except String Bool := do
  let v ← parseVersion version
  let r ← parseVersion rangeVersion
  if v.major = r.major ∧ v.minor = r.minor then do
    let c ← compareVersions version rangeVersion
    pure (decide (0 ≤ c))
  else pure false

/-- `range.startsWith(prefixStr)` on JavaScript strings. -/
def sStartsWith (s pre : String) : Bool :=
  pre.data.isPrefixOf s.data

/-- `s.slice(n)` on JavaScript strings. -/
def sdrop (s : String) (n : Nat) : String :=
  String.mk (s.data.drop n)

/-- The `try`-block body of `VersionChecker.satisfiesVersion`: dispatch on
the range operator; any branch may throw (from a failed parse). -/
def satisfiesVersionE (version range : String) : Except String Bool :=
  if sStartsWith range ">=" then do
    let c ← compareVersions version (sdrop range 2)
    pure (decide (0 ≤ c))
  else if sStartsWith range ">" then do
    let c ← compareVersions version (sdrop range 1)
    pure (decide (0 < c))
  else if sStartsWith range "<=" then do
    let c ← compareVersions version (sdrop range 2)
    pure (decide (c ≤ 0))
  else if sStartsWith range "<" then do
    let c ← compareVersions version (sdrop range 1)
    pure (decide (c < 0))
  else if sStartsWith range "^" then
    satisfiesCaretRange version (sdrop range 1)
  else if sStartsWith range "~" then
    satisfiesTildeRange version (sdrop range 1)
  else do
    let c ← compareVersions version range
    pure (decide (c = 0))

/-- `VersionChecker.satisfiesVersion`: the dispatch above wrapped in the
`try { .. } catch { return false }` of the source — a thrown error is
caught and the call evaluates to `false`. -/
def satisfiesVersion (version range : String) : Bool :=
  match satisfiesVersionE version range with
  | Except.ok b => b
  | Except.error _ => false

/-- The version string each branch of `satisfiesVersion` hands to the
parser after stripping the range operator (observer used to state the
parse-failure claim; mirrors the slicing of each dispatch branch). -/
def rangeTarget (range : String) : String :=
  if sStartsWith range ">=" then sdrop range 2
  else if sStartsWith range ">" then sdrop range 1
  else if sStartsWith range "<=" then sdrop range 2
  else if sStartsWith range "<" then sdrop range 1
  else if sStartsWith range "^" then sdrop range 1
  else if sStartsWith range "~" then sdrop range 1
  else range

/-! ### Data model (src/interfaces/index.ts)

`PluginCapabilityType` and the various status string unions are
TypeScript unions of string literals; they erase to strings and are
modelled as `String`. -/

/-- A declared plugin capability (`PluginCapability`); the `any`-typed
`metadata` and the optional version fields are not consulted by the core
and are omitted. -/
structure PluginCapability where
  type : String
  description : String
  configurable : Bool
deriving DecidableEq

/-- `PluginSettings` (the fields the core reads); `credentials`,
`customSettings` and the other `any`-typed bags are omitted. -/
structure PluginSettings where
  enabled : Bool
  autoSync : Bool
  syncInterval : Option Nat := none
deriving DecidableEq

/-- `SyncResult` (the fields the core produces/inspects); the
`Date`-valued `lastSync` and the `any`-typed `metadata`/`performance`
are omitted. -/
structure SyncResult where
  success : Bool
  eventsImported : Nat
  eventsExported : Nat
  errors : Option (List String) := none
deriving DecidableEq

/-- `PluginStatus` as built by `PluginManager.getSystemStatus` (`version`,
`health` and the optional maps are not produced there and are omitted). -/
structure PluginStatus where
  pluginId : String
  name : String
  status : String
  errorCount : Nat
  lastError : Option String
  capabilities : List String
deriving DecidableEq

/-- The event shape consumed by `PluginManager.routeEvent`: only `type`
and `id` are read by the core. -/
structure LifeOSEvent where
  type : String
  id : String
deriving DecidableEq

/-- A `LifeOSPlugin`. Identity and declaration fields are as in the
interface; each callable member is modelled by the outcome the call
would produce (`Except.error` = the promise rejects / the call throws;
for the optional event hooks, `none` = the hook is not implemented). -/
structure Plugin where
  id : String
  name : String
  version : String
  requiredLifeOSVersion : String
  requiredCapabilities : List String
  capabilities : List PluginCapability
  getSettings : Except String PluginSettings
  initializeResult : Except String Unit
  destroyResult : Except String Unit
  onEventCreated : Option (Except String Unit) := none
  onEventUpdated : Option (Except String Unit) := none
  onEventDeleted : Option (Except String Unit) := none
  sync : Option (Except String SyncResult) := none

/-! ### JavaScript Map / Set semantics on association lists -/

/-- `Map.get`: the value of the first (unique) entry with the given key. -/
def alistGet {α : Type} (l : List (String × α)) (k : String) : Option α :=
  match l.find? (fun kv => kv.1 == k) with
  | some kv => some kv.2
  | none => none

/-- `Map.set`: update in place when the key is present (JS Maps keep the
original insertion position), append otherwise. -/
def mapSet {α : Type} (l : List (String × α)) (k : String) (v : α) :
    List (String × α) :=
  if l.any (fun kv => kv.1 == k) then
    l.map (fun kv => if kv.1 == k then (k, v) else kv)
  else l ++ [(k, v)]

/-- `Map.delete`: drop the entry with the given key. -/
def mapDelete {α : Type} (l : List (String × α)) (k : String) :
    List (String × α) :=
  l.filter (fun kv => kv.1 != k)

/-- `Set.add`: append when absent. -/
def setAdd (s : List String) (x : String) : List String :=
  if s.contains x then s else s ++ [x]

/-- `Set.delete`: remove the element. -/
def setDelete (s : List String) (x : String) : List String :=
  s.filter (fun y => y != x)

/-! ### Plugin registry (src/core/plugin-registry.ts) -/

/-- The `PluginRegistry` state: the id→plugin map, the
capability→plugin-id index, and the configured LifeOS version. -/
structure Registry where
  plugins : List (String × Plugin)
  capabilityIndex : List (String × List String)
  currentLifeOSVersion : String

/-- The closed capability list used by
`PluginRegistry.initializeCapabilityIndex`. -/
def allCapabilities : List String :=
  ["import", "export", "sync", "oauth", "webhook", "api", "custom",
   "music-tracking", "mood-analysis", "playlist-creation", "real-time-sync",
   "offline-caching", "audio-analysis", "recommendations",
   "life-timeline", "event-correlation", "mood-tracking", "focus-tracking",
   "social-integration", "data-visualization"]

/-- The `PluginRegistry` constructor: empty plugin map and a bucket for
every known capability type. -/
def Registry.new (lifeOSVersion : String) : Registry :=
  { plugins := []
    capabilityIndex := allCapabilities.map (fun c => (c, []))
    currentLifeOSVersion := lifeOSVersion }

/-- `PluginRegistry.getPlugin`. -/
def getPlugin (st : Registry) (pluginId : String) : Option Plugin :=
  alistGet st.plugins pluginId

/-- `PluginRegistry.getAllPlugins`. -/
def getAllPlugins (st : Registry) : List Plugin :=
  st.plugins.map (fun kv => kv.2)

/-- Update the bucket of capability `c` when it exists (the source guards
every index mutation with `if (pluginSet)`). -/
def bucketUpdate (idx : List (String × List String)) (c : String)
    (f : List String → List String) : List (String × List String) :=
  idx.map (fun b => if b.1 == c then (b.1, f b.2) else b)

/-- `PluginRegistry.indexPluginCapabilities`: add the plugin id to the
bucket of every declared capability. -/
def indexPluginCapabilities (st : Registry) (p : Plugin) : Registry :=
  { st with
    capabilityIndex :=
      p.capabilities.foldl
        (fun acc cap => bucketUpdate acc cap.type (fun s => setAdd s p.id))
        st.capabilityIndex }

/-- `PluginRegistry.removePluginFromCapabilityIndex`: delete the plugin id
from the bucket of every declared capability. -/
def removePluginFromCapabilityIndex (idx : List (String × List String))
    (p : Plugin) : List (String × List String) :=
  p.capabilities.foldl
    (fun acc cap => bucketUpdate acc cap.type (fun s => setDelete s p.id))
    idx

/-- `VersionChecker.isCapabilityAvailable` /
`PluginRegistry.isCapabilityAvailable`: the development policy accepts
every capability (unknown ones are merely logged). -/
def isCapabilityAvailable (_capability : String) : Bool :=
  true

/-- `VersionChecker.checkRequiredCapabilities`: the required capabilities
the availability probe rejects. -/
def checkRequiredCapabilities (p : Plugin) : List String :=
  p.requiredCapabilities.filter (fun c => !isCapabilityAvailable c)

/-- `PluginCompatibility` (the pure fields; `warnings` and
`recommendations` depend on the wall clock via `isVersionOld` and are
outside the embedding — they only feed log/message text). -/
structure PluginCompatibility where
  pluginId : String
  compatible : Bool
  lifeOSVersion : String
  requiredVersion : String
  missingCapabilities : List String

/-- `VersionChecker.checkCompatibility`: `compatible` is range
satisfaction of the current LifeOS version against the plugin's
`requiredLifeOSVersion`. -/
def checkCompatibility (p : Plugin) (currentLifeOSVersion : String) :
    PluginCompatibility :=
  { pluginId := p.id
    compatible := satisfiesVersion currentLifeOSVersion p.requiredLifeOSVersion
    lifeOSVersion := currentLifeOSVersion
    requiredVersion := p.requiredLifeOSVersion
    missingCapabilities := checkRequiredCapabilities p }

/-- `PluginRegistry.validateCapabilityDependencies` (consulted by
`register` for logging only; never affects the stored state). -/
def validateCapabilityDependencies (p : Plugin) : Bool :=
  p.requiredCapabilities.all (fun c => isCapabilityAvailable c)

/-- The error thrown by `PluginRegistry.register` when the compatibility
check fails (the message text also interpolates the clock-dependent
`warnings`, which the embedding abstracts into the structured error). -/
inductive RegistryError where
  | incompatibleVersion (pluginName requiredVersion lifeOSVersion : String)
deriving DecidableEq

/-- `PluginRegistry.register`: check compatibility; when incompatible,
throw before any mutation (the `catch` block only logs and rethrows);
otherwise insert into the plugin map, then index the declared
capabilities (`validateCapabilityDependencies` afterwards is
warning-only). -/
def register (st : Registry) (p : Plugin) : Except RegistryError Registry :=
  let compatibility := checkCompatibility p st.currentLifeOSVersion
  if compatibility.compatible then
    let st1 := { st with plugins := mapSet st.plugins p.id p }
    Except.ok (indexPluginCapabilities st1 p)
  else
    Except.error
      (RegistryError.incompatibleVersion p.name p.requiredLifeOSVersion
        st.currentLifeOSVersion)

/-- `PluginRegistry.unregister`: when the id is known, remove the plugin
from the capability index first, then from the id map; otherwise do
nothing. -/
def unregister (st : Registry) (pluginId : String) : Registry :=
  match getPlugin st pluginId with
  | none => st
  | some p =>
    { st with
      capabilityIndex := removePluginFromCapabilityIndex st.capabilityIndex p
      plugins := mapDelete st.plugins pluginId }

/-- `PluginRegistry.getPluginsByCapability`: resolve the index bucket
(missing bucket → empty result) and dereference each id through the
plugin map, dropping ids whose plugin is gone. -/
def getPluginsByCapability (st : Registry) (capability : String) :
    List Plugin :=
  match alistGet st.capabilityIndex capability with
  | none => []
  | some pluginIds => pluginIds.filterMap (fun i => alistGet st.plugins i)

/-- The bucket of a capability in the index, as a list of plugin ids
(observer used in claim statements; missing bucket reads as empty). -/
def indexBucket (st : Registry) (capability : String) : List String :=
  (alistGet st.capabilityIndex capability).getD []

/-- Well-formedness of a registry state: every map entry's key is the id
of the stored plugin. `register` only ever inserts a plugin under its
own id, so every reachable state satisfies this. -/
def RegistryWF (st : Registry) : Prop :=
  ∀ kv ∈ st.plugins, kv.2.id = kv.1

/-! ### Plugin manager (src/core/plugin-manager.ts)

The manager owns one registry; its operations thread the registry state
explicitly.  An operation that can reject is in `Except String`; the
state it returns is the registry after the operation (a thrown error
leaves the registry exactly as it was at the throw point). -/

/-- `PluginManager.loadPlugin`: look the id up in the registry (absent →
throw `Plugin not found`), then call the plugin's `initialize`
(propagating its error).  The registry is never mutated. -/
def loadPlugin (st : Registry) (pluginId : String) :
    Except String Registry :=
  match getPlugin st pluginId with
  | none => Except.error ("Plugin not found: " ++ pluginId)
  | some p =>
    match p.initializeResult with
    | Except.ok _ => Except.ok st
    | Except.error e => Except.error e

/-- `PluginManager.unloadPlugin`: look the id up (absent → throw `Plugin
not found`), call the plugin's `destroy` (propagating its error, in
which case the registry is untouched), then unregister the id. -/
def unloadPlugin (st : Registry) (pluginId : String) :
    Except String Registry :=
  match getPlugin st pluginId with
  | none => Except.error ("Plugin not found: " ++ pluginId)
  | some p =>
    match p.destroyResult with
    | Except.ok _ => Except.ok (unregister st pluginId)
    | Except.error e => Except.error e

/-- `PluginManager.reloadPlugin`: `unloadPlugin` then `loadPlugin`, with
no compensation when the second step fails. -/
def reloadPlugin (st : Registry) (pluginId : String) :
    Except String Registry := do
  let st1 ← unloadPlugin st pluginId
  loadPlugin st1 pluginId

/-- The hook of `p` that `routeEvent` would dispatch `ev` to: the source
tests `event.type === 'created' && plugin.onEventCreated` and so on, so
a missing hook (or an unknown event type) selects nothing. -/
def hookFor (ev : LifeOSEvent) (p : Plugin) : Option (Except String Unit) :=
  if ev.type == "created" then p.onEventCreated
  else if ev.type == "updated" then p.onEventUpdated
  else if ev.type == "deleted" then p.onEventDeleted
  else none

/-- One iteration of the `routeEvent` loop, whose body is wrapped in
`try { .. } catch { log }` — the iteration is therefore total.  Returns
(was the plugin's matching hook invoked, the caught error if any):
a failing `getSettings` is caught with nothing dispatched; a disabled
plugin or one without the matching hook is skipped; an implemented hook
is invoked, and an error it throws is caught after the invocation. -/
def routeEventStep (ev : LifeOSEvent) (p : Plugin) : Bool × Option String :=
  match p.getSettings with
  | Except.error e => (false, some e)
  | Except.ok settings =>
    if settings.enabled then
      match hookFor ev p with
      | none => (false, none)
      | some (Except.ok _) => (true, none)
      | some (Except.error e) => (true, some e)
    else (false, none)

/-- The `for (const plugin of plugins)` loop of `routeEvent`: one record
per plugin, in order; each iteration is independent because its errors
are caught inside the loop body. -/
def routeEventLoop (ev : LifeOSEvent) : List Plugin → List (Bool × Option String)
  | [] => []
  | p :: rest => routeEventStep ev p :: routeEventLoop ev rest

/-- `PluginManager.routeEvent` over the registry's plugin list.  The
returned delivery log (invoked?, caught error) is the observable
behaviour of the source's loop; the method itself resolves normally. -/
def routeEvent (st : Registry) (ev : LifeOSEvent) :
    List (Bool × Option String) :=
  routeEventLoop ev (getAllPlugins st)

/-- The `PluginStatus` entry `getSystemStatus` builds for one plugin: a
successful `getSettings` yields `active`/`inactive` with no error; a
failing one is caught into an `error` entry with `errorCount` 1. -/
def pluginStatusOf (p : Plugin) : PluginStatus :=
  match p.getSettings with
  | Except.ok settings =>
    { pluginId := p.id
      name := p.name
      status := if settings.enabled then "active" else "inactive"
      errorCount := 0
      lastError := none
      capabilities := p.capabilities.map (fun cap => cap.type) }
  | Except.error e =>
    { pluginId := p.id
      name := p.name
      status := "error"
      errorCount := 1
      lastError := some e
      capabilities := p.capabilities.map (fun cap => cap.type) }

/-- `PluginManager.determineSystemHealth`: zero error-status plugins →
`healthy`; error count below half the total → `warning`; otherwise
`error`.  JavaScript `totalPlugins / 2` is real division, modelled in
`ℚ`. -/
def determineSystemHealth (pluginStatuses : List PluginStatus) : String :=
  let errorCount := (pluginStatuses.filter (fun q => q.status == "error")).length
  let totalPlugins := pluginStatuses.length
  if errorCount = 0 then "healthy"
  else if (errorCount : ℚ) < (totalPlugins : ℚ) / 2 then "warning"
  else "error"

/-- `SystemStatus` (the `Date`-valued `lastSync` is omitted; `platform`
is the manager's configured platform string). -/
structure SystemStatus where
  systemHealth : String
  totalPlugins : Nat
  activePlugins : Nat
  pluginStatuses : List PluginStatus
  platform : String
deriving DecidableEq

/-- `PluginManager.getSystemStatus`: per-plugin status entries (failures
caught into `error` entries), the count of `active` entries, and the
aggregated system health. -/
def getSystemStatus (st : Registry) (platform : String) : SystemStatus :=
  let plugins := getAllPlugins st
  let pluginStatuses := plugins.map pluginStatusOf
  { systemHealth := determineSystemHealth pluginStatuses
    totalPlugins := plugins.length
    activePlugins := (pluginStatuses.filter (fun q => q.status == "active")).length
    pluginStatuses := pluginStatuses
    platform := platform }

/-- The synthetic failed result `performSystemSync` pushes when a
plugin's iteration throws: `success:false`, the captured message as the
single error, zero counts. -/
def syntheticFailure (msg : String) : SyncResult :=
  { success := false
    eventsImported := 0
    eventsExported := 0
    errors := some [msg] }

/-- One iteration of the `performSystemSync` loop (body in
`try { .. } catch { push synthetic }`): a failing `getSettings` is
caught into a synthetic result; a disabled plugin or one without `sync`
contributes nothing; `sync` contributes its result, or a synthetic one
when it throws. -/
def syncStep (p : Plugin) : Option SyncResult :=
  match p.getSettings with
  | Except.error e => some (syntheticFailure e)
  | Except.ok settings =>
    if settings.enabled then
      match p.sync with
      | none => none
      | some (Except.ok r) => some r
      | some (Except.error e) => some (syntheticFailure e)
    else none

/-- The collection loop of `performSystemSync`. -/
def performSystemSyncLoop : List Plugin → List SyncResult
  | [] => []
  | p :: rest =>
    match syncStep p with
    | some r => r :: performSystemSyncLoop rest
    | none => performSystemSyncLoop rest

/-- `PluginManager.performSystemSync` over the registry's plugin list;
every per-plugin error is caught inside the loop, so the method itself
always resolves with the collected results. -/
def performSystemSync (st : Registry) : List SyncResult :=
  performSystemSyncLoop (getAllPlugins st)

/-- Whether a plugin counts as an enabled sync-capable plugin (its
`getSettings` succeeds reporting `enabled` and it implements `sync`). -/
def enabledSyncable (p : Plugin) : Bool :=
  match p.getSettings with
  | Except.ok settings => settings.enabled && p.sync.isSome
  | Except.error _ => false

/-! ### Association-list lemmas -/

theorem alistGet_eq_none_iff {α : Type} (l : List (String × α)) (k : String) :
    alistGet l k = none ↔ ∀ kv ∈ l, kv.1 ≠ k := by
  unfold alistGet
  cases h : l.find? (fun kv => kv.1 == k) with
  | none =>
    rw [List.find?_eq_none] at h
    simpa using h
  | some kv =>
    have hmem := List.mem_of_find?_eq_some h
    have hpred := List.find?_some h
    simp only [beq_iff_eq] at hpred
    simp only [Option.some_ne_none, false_iff, not_forall]
    exact ⟨kv, hmem, by simp [hpred]⟩

theorem alistGet_some_mem {α : Type} {l : List (String × α)} {k : String}
    {v : α} (h : alistGet l k = some v) : (k, v) ∈ l := by
  unfold alistGet at h
  cases hf : l.find? (fun kv => kv.1 == k) with
  | none => rw [hf] at h; cases h
  | some kv =>
    rw [hf] at h
    have hmem := List.mem_of_find?_eq_some hf
    have hpred := List.find?_some hf
    simp only [beq_iff_eq] at hpred
    cases h
    have : kv = (k, kv.2) := by
      cases kv; simp_all
    rw [← this]; exact hmem

theorem mem_mapDelete_iff {α : Type} (l : List (String × α)) (k : String)
    (kv : String × α) : kv ∈ mapDelete l k ↔ kv ∈ l ∧ kv.1 ≠ k := by
  unfold mapDelete
  rw [List.mem_filter]
  simp [bne_iff_ne]

theorem mapDelete_get_self {α : Type} (l : List (String × α)) (k : String) :
    alistGet (mapDelete l k) k = none := by
  rw [alistGet_eq_none_iff]
  intro kv hkv
  exact ((mem_mapDelete_iff l k kv).mp hkv).2

theorem getAllPlugins_mem {st : Registry} {q : Plugin}
    (h : q ∈ getAllPlugins st) : ∃ k, (k, q) ∈ st.plugins := by
  unfold getAllPlugins at h
  obtain ⟨kv, hkv, hq⟩ := List.mem_map.mp h
  exact ⟨kv.1, by cases kv; cases hq; exact hkv⟩

theorem getPlugin_some_key {st : Registry} {pluginId : String} {p : Plugin}
    (hwf : RegistryWF st) (h : getPlugin st pluginId = some p) :
    p.id = pluginId := by
  have hmem := alistGet_some_mem h
  exact hwf (pluginId, p) hmem

theorem indexBucket_of_all_nil {st : Registry}
    (h : ∀ b ∈ st.capabilityIndex, b.2 = ([] : List String)) (c : String) :
    indexBucket st c = [] := by
  unfold indexBucket alistGet
  cases hf : st.capabilityIndex.find? (fun kv => kv.1 == c) with
  | none => rfl
  | some kv =>
    have := h kv (List.mem_of_find?_eq_some hf)
    simp [this]

/-! ### Claim C1 -/

/-- C1: registering a plugin whose `requiredLifeOSVersion` range the
registry's current LifeOS version does not satisfy throws the
incompatible-version error and inserts nothing: the registry is left
exactly as it was, so (for a plugin id not previously present) the
plugin is absent from `getPlugin`, from `getAllPlugins`, and from every
capability-index bucket — registration is atomic with no partial
state. -/
theorem register_incompatible_not_inserted (st : Registry) (p : Plugin)
    (hwf : RegistryWF st)
    (hincompat : satisfiesVersion st.currentLifeOSVersion
      p.requiredLifeOSVersion = false)
    (hfresh : getPlugin st p.id = none)
    (hidx : ∀ c, p.id ∉ indexBucket st c) :
    register st p =
      Except.error (RegistryError.incompatibleVersion p.name
        p.requiredLifeOSVersion st.currentLifeOSVersion) ∧
    getPlugin st p.id = none ∧
    (∀ q ∈ getAllPlugins st, q.id ≠ p.id) ∧
    (∀ c, p.id ∉ indexBucket st c) := by
  refine ⟨?_, hfresh, ?_, hidx⟩
  · unfold register checkCompatibility
    simp [hincompat]
  · intro q hq hqid
    obtain ⟨k, hk⟩ := getAllPlugins_mem hq
    have hkid : q.id = k := hwf (k, q) hk
    have : ∀ kv ∈ st.plugins, kv.1 ≠ p.id :=
      (alistGet_eq_none_iff st.plugins p.id).mp hfresh
    exact this (k, q) hk (by rw [← hkid, hqid])

/-- Concrete incompatible plugin for the C1 witness: it requires
LifeOS `>=2.0.0` while the registry runs `1.0.0`. -/
def wIncompatPlugin : Plugin :=
  { id := "w1"
    name := "Incompat"
    version := "1.0.0"
    requiredLifeOSVersion := ">=2.0.0"
    requiredCapabilities := []
    capabilities := [⟨"sync", "synchronizes", false⟩]
    getSettings := Except.ok ⟨true, false, none⟩
    initializeResult := Except.ok ()
    destroyResult := Except.ok () }

/-- Witness for C1: on a fresh registry at version 1.0.0, registering
the `>=2.0.0` plugin fails with the incompatible-version error. -/
theorem register_incompatible_witness :
    satisfiesVersion (Registry.new "1.0.0").currentLifeOSVersion
      wIncompatPlugin.requiredLifeOSVersion = false ∧
    register (Registry.new "1.0.0") wIncompatPlugin =
      Except.error (RegistryError.incompatibleVersion "Incompat" ">=2.0.0"
        "1.0.0") ∧
    getPlugin (Registry.new "1.0.0") wIncompatPlugin.id = none := by
  have hwf : RegistryWF (Registry.new "1.0.0") := by
    intro kv hkv
    simp [Registry.new] at hkv
  have hnil : ∀ b ∈ (Registry.new "1.0.0").capabilityIndex,
      b.2 = ([] : List String) := by decide
  have hidx : ∀ c, wIncompatPlugin.id ∉ indexBucket (Registry.new "1.0.0") c := by
    intro c
    rw [indexBucket_of_all_nil hnil c]
    exact List.not_mem_nil _
  have h := register_incompatible_not_inserted (Registry.new "1.0.0")
    wIncompatPlugin hwf (by decide) rfl hidx
  exact ⟨by decide, h.1, h.2.1⟩

/-! ### Claim C3 -/

/-- C3: for a registered plugin and any capability type it declared,
after `unregister(id)` the plugin no longer appears in
`getPluginsByCapability` for that capability; and `unregister` of an
unknown id leaves the registry untouched. -/
theorem unregister_removes_capability_membership (st : Registry)
    (hwf : RegistryWF st) (pluginId : String) :
    (∀ p, getPlugin st pluginId = some p →
      ∀ c ∈ p.capabilities.map (fun cap => cap.type),
        p ∉ getPluginsByCapability (unregister st pluginId) c) ∧
    (getPlugin st pluginId = none → unregister st pluginId = st) := by
  constructor
  · intro p hp c _ hmem
    have hplug : (unregister st pluginId).plugins =
        mapDelete st.plugins pluginId := by
      unfold unregister
      rw [hp]
    have hpid : p.id = pluginId := getPlugin_some_key hwf hp
    unfold getPluginsByCapability at hmem
    cases hb : alistGet (unregister st pluginId).capabilityIndex c with
    | none => rw [hb] at hmem; cases hmem
    | some ids =>
      rw [hb] at hmem
      obtain ⟨i, _, hi⟩ := List.mem_filterMap.mp hmem
      have hpair := alistGet_some_mem hi
      rw [hplug] at hpair
      obtain ⟨hmemOrig, hne⟩ :=
        (mem_mapDelete_iff st.plugins pluginId (i, p)).mp hpair
      have : p.id = i := hwf (i, p) hmemOrig
      exact hne (by rw [← this, hpid])
  · intro h
    unfold unregister
    rw [h]

/-- Concrete one-plugin registry for the C3 witness: plugin `x` declares
the `sync` capability and is indexed under it. -/
def wPluginX : Plugin :=
  { id := "x"
    name := "X"
    version := "1.0.0"
    requiredLifeOSVersion := ">=1.0.0"
    requiredCapabilities := []
    capabilities := [⟨"sync", "synchronizes", false⟩]
    getSettings := Except.ok ⟨true, false, none⟩
    initializeResult := Except.ok ()
    destroyResult := Except.ok () }

/-- Registry holding only `wPluginX`, indexed under `sync`. -/
def wSt3 : Registry :=
  { plugins := [("x", wPluginX)]
    capabilityIndex := [("sync", ["x"])]
    currentLifeOSVersion := "1.0.0" }

/-- Witness for C3: unregistering `x` removes it from the `sync`
capability query, and unregistering the unknown id `ghost` changes
nothing. -/
theorem unregister_removes_capability_witness :
    getPlugin wSt3 "x" = some wPluginX ∧
    "sync" ∈ wPluginX.capabilities.map (fun cap => cap.type) ∧
    wPluginX ∉ getPluginsByCapability (unregister wSt3 "x") "sync" ∧
    getPlugin wSt3 "ghost" = none ∧
    unregister wSt3 "ghost" = wSt3 := by
  have hwf : RegistryWF wSt3 := by
    intro kv hkv
    simp only [wSt3, List.mem_singleton] at hkv
    rw [hkv]
    rfl
  have h := unregister_removes_capability_membership wSt3 hwf "x"
  have h2 := unregister_removes_capability_membership wSt3 hwf "ghost"
  refine ⟨rfl, by simp [wPluginX], ?_, rfl, h2.2 rfl⟩
  exact h.1 wPluginX rfl "sync" (by simp [wPluginX])

/-! ### Claim C10 -/

/-- C10: for any registered plugin whose `destroy` succeeds,
`reloadPlugin` always fails with `Plugin not found`: the unload step
removes the plugin from the registry and the load step looks the id up
in that same registry, so the reload can never succeed and the plugin
stays unregistered. -/
theorem reloadPlugin_always_not_found (st : Registry) (pluginId : String)
    (p : Plugin) (hp : getPlugin st pluginId = some p)
    (hdestroy : p.destroyResult = Except.ok ()) :
    reloadPlugin st pluginId =
      Except.error ("Plugin not found: " ++ pluginId) ∧
    getPlugin (unregister st pluginId) pluginId = none := by
  have habs : getPlugin (unregister st pluginId) pluginId = none := by
    unfold getPlugin unregister
    rw [show getPlugin st pluginId = some p from hp]
    exact mapDelete_get_self _ _
  have hunload : unloadPlugin st pluginId =
      Except.ok (unregister st pluginId) := by
    simp [unloadPlugin, hp, hdestroy]
  have hload : loadPlugin (unregister st pluginId) pluginId =
      Except.error ("Plugin not found: " ++ pluginId) := by
    unfold loadPlugin
    rw [habs]
  refine ⟨?_, habs⟩
  unfold reloadPlugin
  rw [hunload]
  exact hload

/-- Plugin and one-plugin registry for the C10 witness. -/
def wPluginY : Plugin :=
  { id := "y"
    name := "Y"
    version := "2.1.0"
    requiredLifeOSVersion := ">=1.0.0"
    requiredCapabilities := []
    capabilities := [⟨"export", "exports data", true⟩]
    getSettings := Except.ok ⟨true, true, none⟩
    initializeResult := Except.ok ()
    destroyResult := Except.ok () }

/-- Registry holding only `wPluginY`. -/
def wSt10 : Registry :=
  { plugins := [("y", wPluginY)]
    capabilityIndex := [("export", ["y"])]
    currentLifeOSVersion := "1.0.0" }

/-- Witness for C10: reloading the registered plugin `y` (whose destroy
succeeds) fails with `Plugin not found` and leaves `y` unregistered. -/
theorem reloadPlugin_always_not_found_witness :
    getPlugin wSt10 "y" = some wPluginY ∧
    wPluginY.destroyResult = Except.ok () ∧
    reloadPlugin wSt10 "y" = Except.error ("Plugin not found: " ++ "y") ∧
    getPlugin (unregister wSt10 "y") "y" = none := by
  have h := reloadPlugin_always_not_found wSt10 "y" wPluginY rfl rfl
  exact ⟨rfl, rfl, h.1, h.2⟩

/-! ### Claim C9 -/

/-- C9: `reloadPlugin` is exactly `unloadPlugin` followed by
`loadPlugin` with no compensation: whenever the unload step succeeds
(producing registry state `st1`) and the load step then fails, the
plugin is absent from that final registry state — it is not re-inserted
or restored. -/
theorem reloadPlugin_no_atomicity (st : Registry) (pluginId : String) :
    reloadPlugin st pluginId =
      (unloadPlugin st pluginId).bind (fun st1 => loadPlugin st1 pluginId) ∧
    (∀ st1, unloadPlugin st pluginId = Except.ok st1 →
      (∃ e, loadPlugin st1 pluginId = Except.error e) →
      getPlugin st1 pluginId = none) := by
  constructor
  · rfl
  · intro st1 h1 _
    cases hp : getPlugin st pluginId with
    | none => simp [unloadPlugin, hp] at h1
    | some p =>
      cases hd : p.destroyResult with
      | error e => simp [unloadPlugin, hp, hd] at h1
      | ok u =>
        simp [unloadPlugin, hp, hd] at h1
        rw [← h1]
        unfold getPlugin unregister
        rw [show getPlugin st pluginId = some p from hp]
        exact mapDelete_get_self _ _

/-- Plugin and one-plugin registry for the C9 witness. -/
def wPluginZ : Plugin :=
  { id := "z"
    name := "Z"
    version := "0.3.1"
    requiredLifeOSVersion := ">=1.0.0"
    requiredCapabilities := []
    capabilities := [⟨"import", "imports data", false⟩]
    getSettings := Except.ok ⟨false, false, none⟩
    initializeResult := Except.ok ()
    destroyResult := Except.ok () }

/-- Registry holding only `wPluginZ`. -/
def wSt9 : Registry :=
  { plugins := [("z", wPluginZ)]
    capabilityIndex := [("import", ["z"])]
    currentLifeOSVersion := "1.0.0" }

/-- Witness for C9: on the one-plugin registry the unload step succeeds,
the subsequent load step fails, and the plugin is gone from the final
state. -/
theorem reloadPlugin_no_atomicity_witness :
    unloadPlugin wSt9 "z" = Except.ok (unregister wSt9 "z") ∧
    (∃ e, loadPlugin (unregister wSt9 "z") "z" = Except.error e) ∧
    getPlugin (unregister wSt9 "z") "z" = none := by
  have h := reloadPlugin_no_atomicity wSt9 "z"
  have hunload : unloadPlugin wSt9 "z" = Except.ok (unregister wSt9 "z") := rfl
  have hload : loadPlugin (unregister wSt9 "z") "z" =
      Except.error ("Plugin not found: " ++ "z") := rfl
  exact ⟨hunload, ⟨_, hload⟩, h.2 _ hunload ⟨_, hload⟩⟩

/-! ### Claim C4 -/

theorem routeEventLoop_append (ev : LifeOSEvent) (l1 l2 : List Plugin) :
    routeEventLoop ev (l1 ++ l2) =
      routeEventLoop ev l1 ++ routeEventLoop ev l2 := by
  induction l1 with
  | nil => rfl
  | cons p rest ih => simp [routeEventLoop, ih]

/-- C4: `routeEvent` produces one loop record per registered plugin, in
registration order; the record of each plugin depends only on that
plugin (so a plugin whose `getSettings` or handler throws never affects
the deliveries that follow it, and no per-plugin error escapes the
loop); and a plugin's matching hook is invoked exactly when its settings
load successfully reporting `enabled` and it implements the hook for the
event's type. -/
theorem routeEvent_fault_isolation (st : Registry) (ev : LifeOSEvent)
    (ps1 ps2 : List Plugin) (p : Plugin)
    (hsplit : getAllPlugins st = ps1 ++ p :: ps2) :
    routeEvent st ev =
      routeEventLoop ev ps1 ++ routeEventStep ev p ::
        routeEventLoop ev ps2 ∧
    ((routeEventStep ev p).1 = true ↔
      ∃ s, p.getSettings = Except.ok s ∧ s.enabled = true ∧
        (hookFor ev p).isSome = true) := by
  constructor
  · unfold routeEvent
    rw [hsplit, routeEventLoop_append]
    rfl
  · cases hs : p.getSettings with
    | error e => simp [routeEventStep, hs]
    | ok s =>
      cases he : s.enabled with
      | false => simp [routeEventStep, hs, he]
      | true =>
        cases hh : hookFor ev p with
        | none => simp [routeEventStep, hs, he, hh]
        | some r =>
          cases r with
          | ok u => simp [routeEventStep, hs, he, hh]
          | error e => simp [routeEventStep, hs, he, hh]

/-- Enabled plugin whose `created` handler throws (C4 witness). -/
def wPluginA : Plugin :=
  { id := "a"
    name := "A"
    version := "1.0.0"
    requiredLifeOSVersion := ">=1.0.0"
    requiredCapabilities := []
    capabilities := [⟨"webhook", "reacts to events", false⟩]
    getSettings := Except.ok ⟨true, false, none⟩
    initializeResult := Except.ok ()
    destroyResult := Except.ok ()
    onEventCreated := some (Except.error "boom") }

/-- Enabled plugin, registered after `wPluginA`, whose `created` handler
succeeds (C4 witness). -/
def wPluginB : Plugin :=
  { id := "b"
    name := "B"
    version := "1.0.0"
    requiredLifeOSVersion := ">=1.0.0"
    requiredCapabilities := []
    capabilities := [⟨"webhook", "reacts to events", false⟩]
    getSettings := Except.ok ⟨true, false, none⟩
    initializeResult := Except.ok ()
    destroyResult := Except.ok ()
    onEventCreated := some (Except.ok ()) }

/-- Two-plugin registry for the C4 witness. -/
def wSt4 : Registry :=
  { plugins := [("a", wPluginA), ("b", wPluginB)]
    capabilityIndex := [("webhook", ["a", "b"])]
    currentLifeOSVersion := "1.0.0" }

/-- The event routed in the C4 witness. -/
def wEvent : LifeOSEvent := ⟨"created", "e1"⟩

/-- Witness for C4: plugin `a` throws in its handler and plugin `b`,
iterated after it, still receives the event (both records report the
hook as invoked; `a`'s caught error is recorded, `b`'s is `none`). -/
theorem routeEvent_fault_isolation_witness :
    getAllPlugins wSt4 = [] ++ wPluginA :: [wPluginB] ∧
    (routeEvent wSt4 wEvent =
      routeEventLoop wEvent [] ++ routeEventStep wEvent wPluginA ::
        routeEventLoop wEvent [wPluginB] ∧
     ((routeEventStep wEvent wPluginA).1 = true ↔
       ∃ s, wPluginA.getSettings = Except.ok s ∧ s.enabled = true ∧
         (hookFor wEvent wPluginA).isSome = true)) ∧
    routeEventStep wEvent wPluginA = (true, some "boom") ∧
    routeEventStep wEvent wPluginB = (true, none) :=
  ⟨rfl, routeEvent_fault_isolation wSt4 wEvent [] [wPluginB] wPluginA rfl,
    rfl, rfl⟩

/-! ### Claim C5 -/

theorem performSystemSyncLoop_append (l1 l2 : List Plugin) :
    performSystemSyncLoop (l1 ++ l2) =
      performSystemSyncLoop l1 ++ performSystemSyncLoop l2 := by
  induction l1 with
  | nil => rfl
  | cons p rest ih =>
    cases hs : syncStep p with
    | none => simp [performSystemSyncLoop, hs, ih]
    | some r => simp [performSystemSyncLoop, hs, ih]

theorem performSystemSyncLoop_length (ps : List Plugin)
    (hall : ∀ q ∈ ps, (q.getSettings).isOk = true) :
    (performSystemSyncLoop ps).length =
      ps.countP (fun q => enabledSyncable q) := by
  induction ps with
  | nil => rfl
  | cons q rest ih =>
    have hq : (q.getSettings).isOk = true := hall q (List.mem_cons_self q rest)
    have hrest : ∀ r ∈ rest, (r.getSettings).isOk = true :=
      fun r hr => hall r (List.mem_cons_of_mem q hr)
    cases hgs : q.getSettings with
    | error e => rw [hgs] at hq; cases hq
    | ok s =>
      cases he : s.enabled with
      | false =>
        simp [performSystemSyncLoop, syncStep, enabledSyncable, hgs, he,
          List.countP_cons, ih hrest]
      | true =>
        cases hsy : q.sync with
        | none =>
          simp [performSystemSyncLoop, syncStep, enabledSyncable, hgs, he,
            hsy, List.countP_cons, ih hrest]
        | some r =>
          cases r with
          | ok v =>
            simp [performSystemSyncLoop, syncStep, enabledSyncable, hgs,
              he, hsy, List.countP_cons, ih hrest]
          | error e =>
            simp [performSystemSyncLoop, syncStep, enabledSyncable, hgs,
              he, hsy, List.countP_cons, ih hrest]

/-- C5: when every plugin's settings load succeeds, `performSystemSync`
returns exactly one `SyncResult` per enabled plugin implementing
`sync`; an enabled sync-capable plugin whose `sync` throws contributes
the synthetic failed result (`success:false`, the captured message as a
non-empty error list, zero counts) in its place, while the results of
the plugins before and after it are exactly what they contribute on
their own — one plugin's failure never aborts the batch. -/
theorem performSystemSync_fault_isolation (st : Registry)
    (ps1 ps2 : List Plugin) (p : Plugin) (s : PluginSettings) (e : String)
    (hall : ∀ q ∈ getAllPlugins st, (q.getSettings).isOk = true)
    (hs : p.getSettings = Except.ok s) (hen : s.enabled = true)
    (hsync : p.sync = some (Except.error e))
    (hsplit : getAllPlugins st = ps1 ++ p :: ps2) :
    (performSystemSync st).length =
      (getAllPlugins st).countP (fun q => enabledSyncable q) ∧
    performSystemSync st =
      performSystemSyncLoop ps1 ++ syntheticFailure e ::
        performSystemSyncLoop ps2 ∧
    (syntheticFailure e).success = false ∧
    (syntheticFailure e).errors = some [e] ∧
    (syntheticFailure e).eventsImported = 0 ∧
    (syntheticFailure e).eventsExported = 0 := by
  refine ⟨performSystemSyncLoop_length _ hall, ?_, rfl, rfl, rfl, rfl⟩
  unfold performSystemSync
  rw [hsplit, performSystemSyncLoop_append]
  have hstep : syncStep p = some (syntheticFailure e) := by
    simp [syncStep, hs, hen, hsync]
  simp [performSystemSyncLoop, hstep]

/-- Enabled sync-capable plugin whose `sync` succeeds (C5 witness). -/
def wPluginS1 : Plugin :=
  { id := "s1"
    name := "S1"
    version := "1.0.0"
    requiredLifeOSVersion := ">=1.0.0"
    requiredCapabilities := []
    capabilities := [⟨"sync", "synchronizes", false⟩]
    getSettings := Except.ok ⟨true, true, none⟩
    initializeResult := Except.ok ()
    destroyResult := Except.ok ()
    sync := some (Except.ok ⟨true, 2, 1, none⟩) }

/-- Enabled sync-capable plugin whose `sync` throws (C5 witness). -/
def wPluginT : Plugin :=
  { id := "t"
    name := "T"
    version := "1.0.0"
    requiredLifeOSVersion := ">=1.0.0"
    requiredCapabilities := []
    capabilities := [⟨"sync", "synchronizes", false⟩]
    getSettings := Except.ok ⟨true, true, none⟩
    initializeResult := Except.ok ()
    destroyResult := Except.ok ()
    sync := some (Except.error "sync exploded") }

/-- Enabled sync-capable plugin whose `sync` succeeds, registered after
the failing one (C5 witness). -/
def wPluginS2 : Plugin :=
  { id := "s2"
    name := "S2"
    version := "1.0.0"
    requiredLifeOSVersion := ">=1.0.0"
    requiredCapabilities := []
    capabilities := [⟨"sync", "synchronizes", false⟩]
    getSettings := Except.ok ⟨true, true, none⟩
    initializeResult := Except.ok ()
    destroyResult := Except.ok ()
    sync := some (Except.ok ⟨true, 0, 3, none⟩) }

/-- Three-plugin registry for the C5 witness. -/
def wSt5 : Registry :=
  { plugins := [("s1", wPluginS1), ("t", wPluginT), ("s2", wPluginS2)]
    capabilityIndex := [("sync", ["s1", "t", "s2"])]
    currentLifeOSVersion := "1.0.0" }

/-- Witness for C5: over three enabled sync-capable plugins of which the
middle one throws, exactly three results come back; the failing plugin
contributes the synthetic failed result and the other two contribute
their own results unchanged. -/
theorem performSystemSync_fault_isolation_witness :
    (∀ q ∈ getAllPlugins wSt5, (q.getSettings).isOk = true) ∧
    wPluginT.getSettings = Except.ok ⟨true, true, none⟩ ∧
    wPluginT.sync = some (Except.error "sync exploded") ∧
    (performSystemSync wSt5).length = 3 ∧
    performSystemSync wSt5 =
      performSystemSyncLoop [wPluginS1] ++ syntheticFailure "sync exploded" ::
        performSystemSyncLoop [wPluginS2] ∧
    (syntheticFailure "sync exploded").success = false ∧
    (syntheticFailure "sync exploded").errors = some ["sync exploded"] := by
  have h := performSystemSync_fault_isolation wSt5 [wPluginS1] [wPluginS2]
    wPluginT ⟨true, true, none⟩ "sync exploded" (by decide) rfl rfl rfl rfl
  exact ⟨by decide, rfl, rfl, h.1.trans (by decide), h.2.1, h.2.2.1,
    h.2.2.2.1⟩

/-! ### Claim C6 -/

/-- The number of `error`-status entries `getSystemStatus` derives from
the registry's plugins. -/
def systemErrorCount (st : Registry) : Nat :=
  (((getAllPlugins st).map pluginStatusOf).filter
    (fun q => q.status == "error")).length

/-- The total number of registered plugins. -/
def systemTotal (st : Registry) : Nat :=
  (getAllPlugins st).length

/-- An `error`-status entry, as `getSystemStatus` builds when a plugin's
settings load throws (C6 example data). -/
def wStatusErr (pid : String) : PluginStatus :=
  { pluginId := pid
    name := pid
    status := "error"
    errorCount := 1
    lastError := some "settings failed"
    capabilities := [] }

/-- An `active`-status entry (C6 example data). -/
def wStatusOk (pid : String) : PluginStatus :=
  { pluginId := pid
    name := pid
    status := "active"
    errorCount := 0
    lastError := none
    capabilities := [] }

/-- C6: `getSystemStatus` reports `healthy` exactly when no plugin
status is `error`, `warning` exactly when the error count is nonzero
yet strictly below half the total, and `error` exactly when the error
count is nonzero and at least half the total (the JavaScript
`totalPlugins / 2` real division is equivalent to the doubled integer
comparison); in particular 4 plugins with 2 errored yield `error`. -/
theorem systemHealth_thresholds (st : Registry) (platform : String) :
    (((getSystemStatus st platform).systemHealth = "healthy") ↔
      systemErrorCount st = 0) ∧
    (((getSystemStatus st platform).systemHealth = "warning") ↔
      (0 < systemErrorCount st ∧
        2 * systemErrorCount st < systemTotal st)) ∧
    (((getSystemStatus st platform).systemHealth = "error") ↔
      (0 < systemErrorCount st ∧
        systemTotal st ≤ 2 * systemErrorCount st)) ∧
    determineSystemHealth
      [wStatusErr "p1", wStatusErr "p2", wStatusOk "p3", wStatusOk "p4"] =
      "error" := by
  have key : ((systemErrorCount st : ℚ) < (systemTotal st : ℚ) / 2) ↔
      2 * systemErrorCount st < systemTotal st := by
    rw [lt_div_iff₀ (by norm_num : (0 : ℚ) < 2)]
    norm_cast
    omega
  have hne1 : ("warning" : String) ≠ "healthy" := by decide
  have hne2 : ("error" : String) ≠ "healthy" := by decide
  have hne3 : ("healthy" : String) ≠ "warning" := by decide
  have hne4 : ("error" : String) ≠ "warning" := by decide
  have hne5 : ("healthy" : String) ≠ "error" := by decide
  have hne6 : ("warning" : String) ≠ "error" := by decide
  have hex : determineSystemHealth
      [wStatusErr "p1", wStatusErr "p2", wStatusOk "p3", wStatusOk "p4"] =
      "error" := by
    simp only [determineSystemHealth, wStatusErr, wStatusOk, List.filter,
      List.length]
    norm_num
  have hsh : (getSystemStatus st platform).systemHealth =
      (if systemErrorCount st = 0 then "healthy"
       else if (systemErrorCount st : ℚ) < (systemTotal st : ℚ) / 2 then
         "warning"
       else "error") := by
    simp [getSystemStatus, determineSystemHealth, systemErrorCount,
      systemTotal]
  by_cases h0 : systemErrorCount st = 0
  · refine ⟨?_, ?_, ?_, hex⟩ <;> rw [hsh, if_pos h0]
    · simp [h0]
    · simp [h0, hne3]
    · simp [h0, hne5]
  · have hpos : 0 < systemErrorCount st := Nat.pos_of_ne_zero h0
    by_cases h1 : (systemErrorCount st : ℚ) < (systemTotal st : ℚ) / 2
    · have hlt := key.mp h1
      refine ⟨?_, ?_, ?_, hex⟩ <;> rw [hsh, if_neg h0, if_pos h1]
      · simp [h0, hne1]
      · simp [hpos, hlt]
      · simp only [hne6, false_iff]
        omega
    · have hge : systemTotal st ≤ 2 * systemErrorCount st := by
        have h2 : ¬ 2 * systemErrorCount st < systemTotal st :=
          fun hc => h1 (key.mpr hc)
        omega
      refine ⟨?_, ?_, ?_, hex⟩ <;> rw [hsh, if_neg h0, if_neg h1]
      · simp [h0, hne2]
      · simp only [hne4, false_iff]
        omega
      · simp [hpos, hge]

/-! ### Claim C8 -/

/-- C8: the concrete range evaluations of the specification hold on the
code: `>=` compares the parsed triples lexicographically, caret with
nonzero major requires the same major plus a `>=` comparison, and tilde
requires same major, same minor plus a `>=` comparison. -/
theorem satisfiesVersion_range_examples :
    satisfiesVersion "1.2.3" ">=1.0.0" = true ∧
    satisfiesVersion "0.9.0" ">=1.0.0" = false ∧
    satisfiesVersion "1.5.0" "^1.2.3" = true ∧
    satisfiesVersion "2.0.0" "^1.2.3" = false ∧
    satisfiesVersion "1.2.9" "~1.2.3" = true ∧
    satisfiesVersion "1.3.0" "~1.2.3" = false := by
  decide

/-! ### Monadic reduction helpers for the Except embedding -/

theorem except_bind_ok {ε α β : Type} (a : α) (f : α → Except ε β) :
    (Except.ok a >>= f : Except ε β) = f a := rfl

theorem except_bind_error {ε α β : Type} (e : ε) (f : α → Except ε β) :
    (Except.error e >>= f : Except ε β) = Except.error e := rfl

theorem except_pure {ε α : Type} (a : α) :
    (pure a : Except ε α) = Except.ok a := rfl

/-! ### Claim C2 -/

/-- C2 counterexample: the claim asserts
`satisfiesVersion "0.4.0" "^0.3.0" = false`, but the code's caret rule
for major 0 accepts any major-0 version comparing `>=` against the
range version, so the call returns `true`. -/
theorem caret_zero_claim_counterexample :
    satisfiesVersion "0.4.0" "^0.3.0" = true := by
  decide

/-- C2 (amended): for a caret range whose range version has major 0,
`satisfiesCaretRange` accepts exactly the candidates with major 0 whose
triple compares `>=` against the range version — there is no
same-minor restriction, so `satisfiesVersion "0.4.0" "^0.3.0"` is
`true`. -/
theorem caret_zero_rule (version rv : String) (v r : SemVer)
    (hv : parseVersion version = Except.ok v)
    (hr : parseVersion rv = Except.ok r) (hr0 : r.major = 0) :
    satisfiesCaretRange version rv =
      Except.ok (decide (v.major = 0) && decide (0 ≤ cmpTriple v r)) ∧
    satisfiesVersion "0.4.0" "^0.3.0" = true := by
  constructor
  · have hcmp : compareVersions version rv = Except.ok (cmpTriple v r) := by
      simp [compareVersions, hv, hr, except_bind_ok, except_pure]
    by_cases h0 : v.major = 0
    · simp [satisfiesCaretRange, hv, hr, hr0, h0, hcmp, except_bind_ok,
        except_pure]
    · simp [satisfiesCaretRange, hv, hr, hr0, h0, hcmp, except_bind_ok,
        except_pure]
  · decide

/-- Witness for the amended C2: instantiated at `"0.4.0"` against the
caret range on `"0.3.0"`, whose parses are concrete. -/
theorem caret_zero_rule_witness :
    parseVersion "0.4.0" = Except.ok ⟨0, 4, 0⟩ ∧
    parseVersion "0.3.0" = Except.ok ⟨0, 3, 0⟩ ∧
    (⟨0, 3, 0⟩ : SemVer).major = 0 ∧
    satisfiesCaretRange "0.4.0" "0.3.0" =
      Except.ok (decide ((⟨0, 4, 0⟩ : SemVer).major = 0) &&
        decide (0 ≤ cmpTriple ⟨0, 4, 0⟩ ⟨0, 3, 0⟩)) ∧
    satisfiesVersion "0.4.0" "^0.3.0" = true := by
  have h := caret_zero_rule "0.4.0" "0.3.0" ⟨0, 4, 0⟩ ⟨0, 3, 0⟩ rfl rfl rfl
  exact ⟨rfl, rfl, rfl, h.1, h.2⟩

/-! ### Claim C7 -/

theorem compareVersions_error {a b : String}
    (h : (parseVersion a).isOk = false ∨ (parseVersion b).isOk = false) :
    ∃ e, compareVersions a b = Except.error e := by
  cases ha : parseVersion a with
  | error e =>
    exact ⟨e, by simp [compareVersions, ha, except_bind_error]⟩
  | ok va =>
    cases hb : parseVersion b with
    | error e =>
      exact ⟨e, by
        simp [compareVersions, ha, hb, except_bind_ok, except_bind_error]⟩
    | ok vb =>
      rw [ha, hb] at h
      simp [Except.isOk, Except.toBool] at h

theorem satisfiesCaretRange_error {version rv : String}
    (h : (parseVersion version).isOk = false ∨
      (parseVersion rv).isOk = false) :
    ∃ e, satisfiesCaretRange version rv = Except.error e := by
  cases hv : parseVersion version with
  | error e =>
    exact ⟨e, by simp [satisfiesCaretRange, hv, except_bind_error]⟩
  | ok v =>
    cases hr : parseVersion rv with
    | error e =>
      exact ⟨e, by
        simp [satisfiesCaretRange, hv, hr, except_bind_ok,
          except_bind_error]⟩
    | ok r =>
      rw [hv, hr] at h
      simp [Except.isOk, Except.toBool] at h

theorem satisfiesTildeRange_error {version rv : String}
    (h : (parseVersion version).isOk = false ∨
      (parseVersion rv).isOk = false) :
    ∃ e, satisfiesTildeRange version rv = Except.error e := by
  cases hv : parseVersion version with
  | error e =>
    exact ⟨e, by simp [satisfiesTildeRange, hv, except_bind_error]⟩
  | ok v =>
    cases hr : parseVersion rv with
    | error e =>
      exact ⟨e, by
        simp [satisfiesTildeRange, hv, hr, except_bind_ok,
          except_bind_error]⟩
    | ok r =>
      rw [hv, hr] at h
      simp [Except.isOk, Except.toBool] at h

theorem satisfiesVersionE_error_of_parse {version range : String}
    (h : (parseVersion version).isOk = false ∨
      (parseVersion (rangeTarget range)).isOk = false) :
    ∃ e, satisfiesVersionE version range = Except.error e := by
  cases h1 : sStartsWith range ">=" with
  | true =>
    rw [show rangeTarget range = sdrop range 2 by simp [rangeTarget, h1]] at h
    obtain ⟨e, he⟩ := compareVersions_error h
    exact ⟨e, by simp [satisfiesVersionE, h1, he, except_bind_error]⟩
  | false =>
  cases h2 : sStartsWith range ">" with
  | true =>
    rw [show rangeTarget range = sdrop range 1 by
      simp [rangeTarget, h1, h2]] at h
    obtain ⟨e, he⟩ := compareVersions_error h
    exact ⟨e, by simp [satisfiesVersionE, h1, h2, he, except_bind_error]⟩
  | false =>
  cases h3 : sStartsWith range "<=" with
  | true =>
    rw [show rangeTarget range = sdrop range 2 by
      simp [rangeTarget, h1, h2, h3]] at h
    obtain ⟨e, he⟩ := compareVersions_error h
    exact ⟨e, by
      simp [satisfiesVersionE, h1, h2, h3, he, except_bind_error]⟩
  | false =>
  cases h4 : sStartsWith range "<" with
  | true =>
    rw [show rangeTarget range = sdrop range 1 by
      simp [rangeTarget, h1, h2, h3, h4]] at h
    obtain ⟨e, he⟩ := compareVersions_error h
    exact ⟨e, by
      simp [satisfiesVersionE, h1, h2, h3, h4, he, except_bind_error]⟩
  | false =>
  cases h5 : sStartsWith range "^" with
  | true =>
    rw [show rangeTarget range = sdrop range 1 by
      simp [rangeTarget, h1, h2, h3, h4, h5]] at h
    obtain ⟨e, he⟩ := satisfiesCaretRange_error h
    exact ⟨e, by simp [satisfiesVersionE, h1, h2, h3, h4, h5, he]⟩
  | false =>
  cases h6 : sStartsWith range "~" with
  | true =>
    rw [show rangeTarget range = sdrop range 1 by
      simp [rangeTarget, h1, h2, h3, h4, h5, h6]] at h
    obtain ⟨e, he⟩ := satisfiesTildeRange_error h
    exact ⟨e, by simp [satisfiesVersionE, h1, h2, h3, h4, h5, h6, he]⟩
  | false =>
    rw [show rangeTarget range = range by
      simp [rangeTarget, h1, h2, h3, h4, h5, h6]] at h
    obtain ⟨e, he⟩ := compareVersions_error h
    exact ⟨e, by
      simp [satisfiesVersionE, h1, h2, h3, h4, h5, h6, he,
        except_bind_error]⟩

/-- C7: `satisfiesVersion` is a total Boolean function — the
`try`/`catch` around the dispatch means it never throws — and whenever
parsing of the candidate version or of the range's version part fails
(the three numeric components are absent), the thrown parse error is
caught and the call evaluates to `false`. -/
theorem satisfiesVersion_total_parse_failure (version range : String) :
    (satisfiesVersion version range = true ∨
      satisfiesVersion version range = false) ∧
    (((parseVersion version).isOk = false ∨
      (parseVersion (rangeTarget range)).isOk = false) →
      satisfiesVersion version range = false) := by
  constructor
  · cases h : satisfiesVersion version range with
    | true => exact Or.inl rfl
    | false => exact Or.inr rfl
  · intro h
    obtain ⟨e, he⟩ := satisfiesVersionE_error_of_parse h
    simp [satisfiesVersion, he]

/-- Witness for C7: the malformed version string `not-a-version` fails
to parse and the range check evaluates to `false` without throwing. -/
theorem satisfiesVersion_total_parse_failure_witness :
    ((parseVersion "not-a-version").isOk = false ∨
      (parseVersion (rangeTarget ">=1.0.0")).isOk = false) ∧
    satisfiesVersion "not-a-version" ">=1.0.0" = false := by
  have h := satisfiesVersion_total_parse_failure "not-a-version" ">=1.0.0"
  exact ⟨Or.inl (by decide), h.2 (Or.inl (by decide))⟩

end LifeOS
